import Mathlib

/-!
Shallow embedding of `src/dt_index_streamlit.py`, a Streamlit dashboard over a
spreadsheet of firm-level digital-transformation index scores.

Modelling conventions:
* a pandas DataFrame is a `List` of rows, in row order;
* pandas cell values of dynamic type are `PyVal` (string / int / float / NaN);
* floating-point scores are embedded as exact rationals `ℚ`;
* a pandas operation that can raise (regex compilation in `str.contains`,
  `astype(int)` on a non-coercible year) returns `Option`, `none` being the
  raised exception;
* `Series.str.contains(pat, case=False)` uses `regex=True` by default, so the
  pattern is compiled as a regular expression with `re.IGNORECASE`.  The regex
  dialect is modelled for the fragment exercised here: literal characters,
  `.`, and the postfix quantifiers `*`, `+`, `?`; the remaining metacharacters
  (`(`, `)`, `[`, `]`, braces, backslash, `|`, `^`, `$`) are mapped to a
  compilation error, as `(` alone is in Python; case-insensitivity is modelled
  by `Char.toLower` (ASCII case mapping).
-/

/-- A dynamically typed pandas cell value: string, int, float, or NaN/null. -/
inductive PyVal where
  | vstr (s : String)
  | vint (n : Int)
  | vfloat (q : ℚ)
  | vnull
deriving DecidableEq

/-- Python `str()` of a float, modelled exactly for integral floats (the form
`"n.0"`); non-integral floats get a placeholder rendering, never exercised by
the claims. -/
def floatStr (q : ℚ) : String :=
  if q.den = 1 then toString q.num ++ ".0"
  else toString q.num ++ "/" ++ toString q.den

/-- Python `str(x)` on a cell value; `str(nan) = "nan"`. -/
def pyStr : PyVal → String
  | .vstr s => s
  | .vint n => toString n
  | .vfloat q => floatStr q
  | .vnull => "nan"

/-- Python `str.zfill(w)`: left-pad with `'0'` to width `w`, keeping a leading
sign character in front of the padding. -/
def zfill (s : String) (w : Nat) : String :=
  if w ≤ s.length then s
  else
    let pad := String.mk (List.replicate (w - s.length) '0')
    match s.data with
    | [] => pad
    | c :: rest =>
      if c = '+' ∨ c = '-' then String.mk (c :: (pad.data ++ rest))
      else pad ++ s

/-- `isinstance(x, (str, int))`. -/
def isStrOrInt : PyVal → Bool
  | .vstr _ => true
  | .vint _ => true
  | _ => false

/-- Lines 31–33 of the source: the per-cell stock-code normalization
`str(x).zfill(6) if isinstance(x, (str, int)) and str(x) != '未知' and
len(str(x)) < 6 else x`, followed by `astype(str)` applied to the column. -/
def normStock (x : PyVal) : String :=
  if isStrOrInt x = true ∧ pyStr x ≠ "未知" ∧ (pyStr x).length < 6
  then zfill (pyStr x) 6
  else pyStr x

/-- One row of the in-memory table after a successful load: `stock_code` is a
string, `company_name` and `index_score` are present, `year` is an integer;
`industry_name` may still be null until the fillna step (source line 61). -/
structure Record where
  stock_code : String
  company_name : String
  industry_name : Option String
  year : Int
  index_score : ℚ
  total_word_freq : ℚ
deriving DecidableEq

/-- One raw spreadsheet row as read by `pd.read_excel`, before cleaning. -/
structure Row where
  stock_code : PyVal
  company_name : Option String
  industry_name : Option String
  year : PyVal
  index_score : Option ℚ
  total_word_freq : ℚ
deriving DecidableEq

/-- Python `int()` truncation toward zero (also pandas float→int casts). -/
def pyTrunc (q : ℚ) : Int := q.num.tdiv q.den

/-- Decimal value of a nonempty all-digit character list, else `none`. -/
def digitsVal : List Char → Option Nat
  | [] => none
  | l => l.foldl
      (fun acc c => acc.bind (fun n =>
        if c.isDigit then some (n * 10 + (c.toNat - '0'.toNat)) else none))
      (some 0)

/-- Python `int(string)` on a decimal literal with optional leading sign. -/
def pyStrToInt (s : String) : Option Int :=
  match s.data with
  | '-' :: rest => (digitsVal rest).map (fun n => -(n : Int))
  | '+' :: rest => (digitsVal rest).map (fun n => (n : Int))
  | l => (digitsVal l).map (fun n => (n : Int))

/-- `astype(int)` on one year cell: ints pass through, floats truncate,
numeric strings parse, NaN (and other strings) raise — `none`. -/
def coerceYear : PyVal → Option Int
  | .vint n => some n
  | .vfloat q => some (pyTrunc q)
  | .vstr s => pyStrToInt s
  | .vnull => none

/-- pandas null test on one cell, as used by `dropna`. -/
def notNullVal : PyVal → Bool
  | .vnull => false
  | _ => true

/-- Builds the strictly typed record from a cleaned row; `none` when the year
cell cannot be coerced to an integer (the `astype(int)` exception). -/
def mkRecord (r : Row) : Option Record :=
  match r.company_name, r.index_score, coerceYear r.year with
  | some c, some sc, some y =>
    some { stock_code := pyStr r.stock_code, company_name := c,
           industry_name := r.industry_name, year := y,
           index_score := sc, total_word_freq := r.total_word_freq }
  | _, _, _ => none

/-- Row-wise fallible map: `none` as soon as any element fails — the list
analogue of a column cast that raises on the first bad cell. -/
def mapOption {α β : Type} (f : α → Option β) : List α → Option (List β)
  | [] => some []
  | a :: as =>
    match f a, mapOption f as with
    | some b, some bs => some (b :: bs)
    | _, _ => none

/-- Lines 28–39 of the source, `load_data` after the file read: normalize the
stock-code column (and `astype(str)` it), `dropna` on stock code / company
name / index score, then `astype(int)` the year column; any year-coercion
failure raises, failing the whole load (`none`). -/
def load_data (rows : List Row) : Option (List Record) :=
  let rows1 := rows.map (fun r => { r with stock_code := PyVal.vstr (normStock r.stock_code) })
  let kept := rows1.filter (fun r =>
    notNullVal r.stock_code && r.company_name.isSome && r.index_score.isSome)
  mapOption mkRecord kept

/-- Line 61 of the source: `df['行业名称'] = df['行业名称'].fillna('未知行业')`.
This is an in-place column assignment on the loaded table; the table bound to
`df` after line 61 is `fill_industry` of the loaded one. -/
def fill_industry (df : List Record) : List Record :=
  df.map (fun r => { r with industry_name := some (r.industry_name.getD "未知行业") })

/-! ### The regex model behind `Series.str.contains(pat, case=False)` -/

/-- A regex atom of the modelled fragment: a literal character or `.`. -/
inductive RAtom where
  | lit (c : Char)
  | dot
deriving DecidableEq

/-- A regex piece: an atom, possibly carrying a postfix quantifier. -/
inductive RPiece where
  | once (a : RAtom)
  | star (a : RAtom)
  | plus (a : RAtom)
  | opt (a : RAtom)
deriving DecidableEq

/-- Metacharacters outside the modelled fragment; Python rejects a lone `(`
with `re.error`, and the rest are conservatively mapped to the same error. -/
def isMeta (c : Char) : Bool :=
  c = '(' || c = ')' || c = '[' || c = ']' || c = '\x7b' || c = '\x7d' ||
  c = '\\' || c = '|' || c = '^' || c = '$'

/-- The postfix quantifier characters. -/
def isQuant (c : Char) : Bool := c = '*' || c = '+' || c = '?'

/-- The atom denoted by a non-quantifier pattern character. -/
def atomOf (c : Char) : RAtom := if c = '.' then RAtom.dot else RAtom.lit c

/-- Pattern compilation (`re.compile`) over the modelled fragment; a leading
quantifier ("nothing to repeat"), a doubled quantifier ("multiple repeat") and
the unmodelled metacharacters are compilation errors. -/
def parseRe : List Char → Option (List RPiece)
  | [] => some []
  | [c] =>
    if isMeta c || isQuant c then none
    else some [RPiece.once (atomOf c)]
  | c :: q :: rest =>
    if isMeta c || isQuant c then none
    else if q = '*' then (parseRe rest).map (fun ps => RPiece.star (atomOf c) :: ps)
    else if q = '+' then (parseRe rest).map (fun ps => RPiece.plus (atomOf c) :: ps)
    else if q = '?' then (parseRe rest).map (fun ps => RPiece.opt (atomOf c) :: ps)
    else (parseRe (q :: rest)).map (fun ps => RPiece.once (atomOf c) :: ps)

/-- Atom match on one character, with `re.IGNORECASE`; `.` matches any
character except a newline (DOTALL is off). -/
def atomMatch : RAtom → Char → Bool
  | .lit c, x => c.toLower == x.toLower
  | .dot, x => x != '\n'

/-- Does the piece list match some prefix of the character list?  Fuel-indexed
backtracking matcher: every step either drops a piece or consumes a character,
so the potential `ps.length + 2 * xs.length` strictly decreases and any fuel
above it makes the result fuel-independent. -/
def matchFuel : Nat → List RPiece → List Char → Bool
  | 0, _, _ => false
  | _ + 1, [], _ => true
  | n + 1, .once a :: ps, xs =>
    match xs with
    | [] => false
    | x :: xs' => atomMatch a x && matchFuel n ps xs'
  | n + 1, .opt a :: ps, xs =>
    matchFuel n ps xs ||
      (match xs with
       | [] => false
       | x :: xs' => atomMatch a x && matchFuel n ps xs')
  | n + 1, .plus a :: ps, xs =>
    (match xs with
     | [] => false
     | x :: xs' => atomMatch a x && matchFuel n (RPiece.star a :: ps) xs')
  | n + 1, .star a :: ps, xs =>
    matchFuel n ps xs ||
      (match xs with
       | [] => false
       | x :: xs' => atomMatch a x && matchFuel n (RPiece.star a :: ps) xs')

/-- The matcher run with sufficient fuel. -/
def matchHere (ps : List RPiece) (xs : List Char) : Bool :=
  matchFuel (ps.length + 2 * xs.length + 1) ps xs

/-- `re.search`: the compiled pattern matches starting at some position. -/
def reSearch (ps : List RPiece) (s : String) : Bool :=
  s.data.tails.any (fun t => matchHere ps t)

/-- The row predicate of the search filter (lines 91–94): the compiled search
pattern matches inside the company name or inside the stock code. -/
def searchKeep (rx : List RPiece) (r : Record) : Bool :=
  reSearch rx r.company_name || reSearch rx r.stock_code

/-- Lines 79–94 of the source: the sidebar filter pipeline — year equality,
industry equality unless `"全部"` ("all") is selected, inclusive index-score
range (the slider bounds are integers), then the search filter when the search
text is non-empty; `none` is the `re.error` raised on a bad pattern. -/
def filtered_df (df : List Record) (selected_year : Int) (selected_industry : String)
    (lo hi : Int) (company_search : String) : Option (List Record) :=
  let t1 := df.filter (fun r => r.year == selected_year)
  let t2 := if selected_industry ≠ "全部"
            then t1.filter (fun r => r.industry_name == some selected_industry)
            else t1
  let t3 := t2.filter (fun r =>
    decide ((lo : ℚ) ≤ r.index_score) && decide (r.index_score ≤ (hi : ℚ)))
  if company_search = "" then some t3
  else (parseRe company_search.data).map (fun rx => t3.filter (searchKeep rx))

/-- The conjunction of the four filter predicates on one row, as the code
evaluates them (the search component is the compiled-regex match). -/
def rowPasses (selected_year : Int) (selected_industry : String) (lo hi : Int)
    (company_search : String) (r : Record) : Bool :=
  (r.year == selected_year)
  && (if selected_industry ≠ "全部" then r.industry_name == some selected_industry else true)
  && (decide ((lo : ℚ) ≤ r.index_score) && decide (r.index_score ≤ (hi : ℚ)))
  && (if company_search = "" then true
      else (parseRe company_search.data).elim false (fun rx => searchKeep rx r))

/-! ### Trend, industry ranking, display table, summary -/

/-- Lines 223–227 of the source: the rows of the FULL table (all years) whose
company name or stock code matches the search pattern, sorted ascending by
year (`sort_values(by='年份')`, modelled as a stable sort). -/
def trend_df (df : List Record) (company_search : String) : Option (List Record) :=
  (parseRe company_search.data).map (fun rx =>
    List.insertionSort (fun a b : Record => a.year ≤ b.year) (df.filter (searchKeep rx)))

/-- The (year, index_score) series the trend chart plots (lines 231–237):
the pairs of every row of `trend_df`, in its order. -/
def company_trend (df : List Record) (company_search : String) :
    Option (List (Int × ℚ)) :=
  (trend_df df company_search).map (List.map (fun r => (r.year, r.index_score)))

/-- Rational addition in a kernel-computable form; `addQ_eq_add` below proves
it equal to `+` on `ℚ` (whose library definition is reducibility-restricted). -/
def addQ (a b : ℚ) : ℚ := mkRat (a.num * b.den + b.num * a.den) (a.den * b.den)

/-- Rational division in a kernel-computable form; `divQ_eq_div` below proves
it equal to `/` on `ℚ`. -/
def divQ (a b : ℚ) : ℚ := Rat.divInt (a.num * b.den) (a.den * b.num)

/-- Sum of a list of scores (`Series.sum`). -/
def sumQ (l : List ℚ) : ℚ := l.foldr addQ 0

/-- `mean` of a list of scores, as pandas computes it on a nonempty column:
the sum divided by the length (`mean_eq_sum_div_length` below restates it with
the library operations). -/
def mean (l : List ℚ) : ℚ := divQ (sumQ l) (l.length : ℚ)

/-- Lexicographic order on character lists by code point — Python's `str`
comparison, which is the order `groupby` sorts its keys in. -/
def lexLe : List Char → List Char → Bool
  | [], _ => true
  | _ :: _, [] => false
  | a :: as, b :: bs =>
    if a.toNat < b.toNat then true
    else if b.toNat < a.toNat then false
    else lexLe as bs

/-- The distinct industry keys of a table, in `groupby`'s ascending key order
(rows with a null key are excluded, as `groupby` drops NaN keys). -/
def groupKeys (t : List Record) : List String :=
  List.insertionSort (fun a b : String => lexLe a.data b.data = true)
    ((t.filterMap (fun r => r.industry_name)).dedup)

/-- Lines 205–206 of the source: restrict the FULL table to the selected year,
group by industry, take the mean index score of each group, and sort the
(industry, mean) pairs descending by mean. -/
def industry_avg (df : List Record) (selected_year : Int) : List (String × ℚ) :=
  let t := df.filter (fun r => r.year == selected_year)
  let pairs := (groupKeys t).map (fun k =>
    (k, mean ((t.filter (fun r => r.industry_name == some k)).map (fun r => r.index_score))))
  List.insertionSort (fun a b : String × ℚ => b.2 ≤ a.2) pairs

/-- One row of the ranking table shown to the user (lines 194–199): the rank
column inserted in front of the selected column subset. -/
structure DisplayRow where
  rank : Nat
  stock_code : String
  company_name : String
  industry_name : Option String
  index_score : ℚ
  total_word_freq : ℚ
deriving DecidableEq

/-- Line 191: `sort_values(by='数字化转型指数(0-100分)', ascending=False)`. -/
def ranked_df (t : List Record) : List Record :=
  List.insertionSort (fun a b : Record => b.index_score ≤ a.index_score) t

/-- Lines 194–199: take the first 20 rows of the score-sorted table and insert
a rank column holding 1, 2, … in that order. -/
def display_df (t : List Record) : List DisplayRow :=
  ((ranked_df t).take 20).enum.map (fun p =>
    { rank := p.1 + 1, stock_code := p.2.stock_code, company_name := p.2.company_name,
      industry_name := p.2.industry_name, index_score := p.2.index_score,
      total_word_freq := p.2.total_word_freq })

/-- Maximum index score of a table (`Series.max()`), NaN-free post-load; the
empty-table case (pandas NaN) is given the placeholder 0 and is never used by
the code, which branches on emptiness first. -/
def maxScore : List Record → ℚ
  | [] => 0
  | r :: rs => rs.foldl (fun m x => max m x.index_score) r.index_score

/-- Minimum index score of a table (`Series.min()`), same conventions. -/
def minScore : List Record → ℚ
  | [] => 0
  | r :: rs => rs.foldl (fun m x => min m x.index_score) r.index_score

/-- Lines 101–148 of the source, the four metric cards: the row count is always
shown; on an empty filtered table the mean/max/min cards are `st.empty()` —
no numeric value at all, modelled as `none`; on a nonempty table the computed
mean, max and min aggregates are shown (their `pd.isna` fallbacks are dead
code there, since post-load scores are non-null; the `"{:.1f}"`/`int()`
conversions in `st.metric` are display formatting of these values, owned by
the out-of-scope widget layer). -/
def summaryBlock (t : List Record) : Nat × Option ℚ × Option ℚ × Option ℚ :=
  if t.isEmpty then (t.length, none, none, none)
  else (t.length,
        some (mean (t.map (fun r => r.index_score))),
        some (maxScore t),
        some (minScore t))

/-! ### Spec-side comparison definitions (from the spec's words, not the code) -/

/-- Lower-case a character list (the spec's case-insensitive comparison). -/
def lowerList (l : List Char) : List Char := l.map Char.toLower

/-- Modelled from the spec: `pat` occurs in `s` as a case-insensitive LITERAL
substring — the rule §4.2 states for the search text. -/
def ciSubstr (pat s : List Char) : Bool :=
  (lowerList s).tails.any (fun t => (lowerList pat).isPrefixOf t)

/-- Modelled from the spec: the §4.2 search rule read literally — keep a row
when the search text is a case-insensitive literal substring of the company
name or of the stock code. -/
def specSearchKeep (s : String) (r : Record) : Bool :=
  ciSubstr s.data r.company_name.data || ciSubstr s.data r.stock_code.data

/-- Modelled from the spec: `company_trend` as §4.3(4) words it — the
(year, score) pairs of the FIRST matching company only, sorted by year. -/
def firstMatchTrend (df : List Record) (s : String) : List (Int × ℚ) :=
  let ms := List.insertionSort (fun a b : Record => a.year ≤ b.year) (df.filter (specSearchKeep s))
  match ms with
  | [] => []
  | r0 :: _ =>
    (ms.filter (fun r => r.company_name == r0.company_name)).map
      (fun r => (r.year, r.index_score))

/-- A pattern character that is neither a metacharacter, nor a quantifier,
nor `.`: such characters only ever match themselves (case-insensitively). -/
def isLiteralChar (c : Char) : Bool := !(isMeta c || isQuant c || c = '.')

/-! ### Concrete sample tables used by witnesses and counterexamples -/

/-- A benign single record. -/
def recBase : Record :=
  { stock_code := "000001", company_name := "AB", industry_name := some "工业",
    year := 2020, index_score := 50, total_word_freq := 10 }

/-- Company whose name contains the letter `a`, year 2020. -/
def recAlpha : Record :=
  { stock_code := "000010", company_name := "Alpha", industry_name := some "工业",
    year := 2020, index_score := 10, total_word_freq := 1 }

/-- A different company whose name also contains the letter `a`, year 2021. -/
def recBeta : Record :=
  { stock_code := "000020", company_name := "Beta", industry_name := some "服务",
    year := 2021, index_score := 20, total_word_freq := 1 }

/-- A second-industry record for year 2020. -/
def recBeta0 : Record :=
  { stock_code := "000021", company_name := "Beta", industry_name := some "服务",
    year := 2020, index_score := 20, total_word_freq := 1 }

/-- The spec's scenario company, year 2021 row. -/
def recAcme1 : Record :=
  { stock_code := "100001", company_name := "Acme", industry_name := some "工业",
    year := 2021, index_score := 90, total_word_freq := 1 }

/-- The spec's scenario company, year 2020 row. -/
def recAcme0 : Record :=
  { stock_code := "100001", company_name := "Acme", industry_name := some "工业",
    year := 2020, index_score := 80, total_word_freq := 1 }

/-- A record with a null industry, as loaded (before the fillna step). -/
def recNull : Record :=
  { stock_code := "000030", company_name := "C", industry_name := none,
    year := 2020, index_score := 30, total_word_freq := 1 }

/-- The top scorer of the C10 table: its score 79.5 is non-integral. -/
def recHigh : Record :=
  { stock_code := "000040", company_name := "High", industry_name := some "工业",
    year := 2020, index_score := mkRat 159 2, total_word_freq := 1 }

/-- The low scorer of the C10 table. -/
def recLow : Record :=
  { stock_code := "000050", company_name := "Low", industry_name := some "工业",
    year := 2020, index_score := 70, total_word_freq := 1 }

/-- A fully populated raw spreadsheet row. -/
def rowGood : Row :=
  { stock_code := PyVal.vint 123, company_name := some "AB", industry_name := none,
    year := PyVal.vstr "2020", index_score := some 50, total_word_freq := 1 }

/-- The record `load_data` produces from `rowGood`. -/
def recG : Record :=
  { stock_code := "000123", company_name := "AB", industry_name := none,
    year := 2020, index_score := 50, total_word_freq := 1 }

/-! ### Bridge lemmas: the computable arithmetic agrees with the library's -/

theorem addQ_eq_add (a b : ℚ) : addQ a b = a + b := (Rat.add_def' a b).symm

theorem divQ_eq_div (a b : ℚ) : divQ a b = a / b := (Rat.div_def' a b).symm

theorem sumQ_eq_sum (l : List ℚ) : sumQ l = l.sum := by
  induction l with
  | nil => rfl
  | cons x xs ih => simp [sumQ, List.foldr_cons, addQ_eq_add, List.sum_cons]
                    simpa [sumQ] using ih

theorem mean_eq_sum_div_length (l : List ℚ) : mean l = l.sum / (l.length : ℚ) := by
  rw [mean, divQ_eq_div, sumQ_eq_sum]

/-! ### Helper lemmas -/

/-- Whenever the filter pipeline evaluates (no pattern error), a row is in its
output exactly when it is an input row passing all four predicates. -/
theorem mem_filtered_df {df : List Record} {y : Int} {ind : String} {lo hi : Int}
    {s : String} {out : List Record} (r : Record)
    (h : filtered_df df y ind lo hi s = some out) :
    r ∈ out ↔ r ∈ df ∧ rowPasses y ind lo hi s r = true := by
  unfold filtered_df at h
  by_cases hs : s = ""
  · rw [if_pos hs] at h
    injection h with h
    subst h
    by_cases hind : ind ≠ "全部"
    · simp [List.mem_filter, rowPasses, hs, hind]
      all_goals tauto
    · simp [List.mem_filter, rowPasses, hs, hind]
      all_goals tauto
  · rw [if_neg hs] at h
    cases hp : parseRe s.data with
    | none => rw [hp] at h; cases h
    | some rx =>
      rw [hp] at h
      simp only [Option.map_some', Option.some.injEq] at h
      subst h
      by_cases hind : ind ≠ "全部"
      · simp [List.mem_filter, rowPasses, hs, hind, hp]
        all_goals tauto
      · simp [List.mem_filter, rowPasses, hs, hind, hp]
        all_goals tauto

/-! ### Claim C1 -/

/-- C1: for every table, selected year, industry selector, inclusive index
range and search text on which the filter evaluates, the filtered result
contains exactly those input rows satisfying all active predicates — no row is
fabricated and no passing row is dropped. -/
theorem C1_filter_exact (df : List Record) (y : Int) (ind : String) (lo hi : Int)
    (s : String) (out : List Record) (r : Record)
    (h : filtered_df df y ind lo hi s = some out) :
    r ∈ out ↔ r ∈ df ∧ rowPasses y ind lo hi s r = true :=
  mem_filtered_df r h

/-- C1 witness: the theorem applied to a concrete one-row table. -/
theorem C1_filter_exact_witness :
    filtered_df [recBase] 2020 "全部" 0 100 "" = some [recBase] ∧
    (recBase ∈ [recBase] ↔
      recBase ∈ [recBase] ∧ rowPasses 2020 "全部" 0 100 "" recBase = true) :=
  ⟨by decide,
   C1_filter_exact [recBase] 2020 "全部" 0 100 "" [recBase] recBase (by decide)⟩

/-! ### Claim C2 -/

/-- A pattern text of literal characters only compiles to a list of
single-occurrence literal atoms. -/
theorem parseRe_literal (l : List Char) (hlit : l.all isLiteralChar = true) :
    parseRe l = some (l.map (fun c => RPiece.once (RAtom.lit c))) := by
  induction l with
  | nil => rfl
  | cons c tl ih =>
    have hc : (isMeta c = false ∧ isQuant c = false) ∧ ¬ c = '.' := by
      have := (List.all_eq_true.mp hlit) c (by simp)
      simp [isLiteralChar] at this
      simpa using this
    have hatom : atomOf c = RAtom.lit c := by
      simp [atomOf, hc.2]
    have htl : tl.all isLiteralChar = true := by
      rw [List.all_eq_true] at hlit ⊢
      exact fun x hx => hlit x (by simp [hx])
    cases tl with
    | nil =>
      simp [parseRe, hc.1.1, hc.1.2, hatom]
    | cons q rest =>
      have hq : isMeta q = false ∧ isQuant q = false := by
        have := (List.all_eq_true.mp hlit) q (by simp)
        simp [isLiteralChar] at this
        exact ⟨this.1.1, this.1.2⟩
      have hqs : (¬ q = '*' ∧ ¬ q = '+') ∧ ¬ q = '?' := by
        have := hq.2
        simp [isQuant] at this
        simpa using this
      rw [parseRe, if_neg (by simp [hc.1.1, hc.1.2]), if_neg hqs.1.1, if_neg hqs.1.2,
        if_neg hqs.2, ih htl]
      simp [hatom]

/-- Tails of a mapped list are the mapped tails. -/
theorem tails_map {α β : Type} (f : α → β) (l : List α) :
    (l.map f).tails = l.tails.map (List.map f) := by
  induction l with
  | nil => rfl
  | cons a tl ih => simp [List.tails_cons, ih]

/-- With enough fuel, a literal-atom pattern matches a prefix exactly when the
lowered pattern text is a prefix of the lowered input. -/
theorem matchFuel_literal (l : List Char) :
    ∀ (n : Nat) (xs : List Char), l.length < n →
      matchFuel n (l.map (fun c => RPiece.once (RAtom.lit c))) xs
        = (lowerList l).isPrefixOf (lowerList xs) := by
  induction l with
  | nil =>
    intro n xs hn
    cases n with
    | zero => cases hn
    | succ m => simp [matchFuel, lowerList, List.isPrefixOf]
  | cons c tl ih =>
    intro n xs hn
    cases n with
    | zero => cases hn
    | succ m =>
      cases xs with
      | nil => simp [matchFuel, lowerList, List.isPrefixOf]
      | cons x xs' =>
        have hm : tl.length < m := by
          simpa [Nat.succ_lt_succ_iff] using hn
        simp [matchFuel, lowerList, List.isPrefixOf, atomMatch, ih m xs' hm]

/-- A literal-atom pattern searches as a case-insensitive literal substring. -/
theorem reSearch_literal (l : List Char) (s : String) :
    reSearch (l.map (fun c => RPiece.once (RAtom.lit c))) s = ciSubstr l s.data := by
  unfold reSearch ciSubstr
  rw [show lowerList s.data = s.data.map Char.toLower from rfl, tails_map, List.any_map]
  congr 1
  funext t
  have hlen : l.length < l.length + 2 * t.length + 1 := by omega
  simp [Function.comp, matchHere, lowerList,
    matchFuel_literal l (l.length + 2 * t.length + 1) t hlen]

/-- C2 counterexample: with search text `"."`, the filter keeps a row whose
company name and stock code contain no literal `'.'` at all — the search text
is compiled as a regular expression, not matched as a literal substring, so
the claimed if-and-only-if characterization fails at this input. -/
theorem C2_search_regex_counterexample :
    filtered_df [recBase] 2020 "全部" 0 100 "." = some [recBase] ∧
    specSearchKeep "." recBase = false := by
  constructor
  · decide
  · decide

/-- C2 (amended): the search text is compiled as a case-insensitive regular
expression; whenever it consists only of literal characters (no regex
metacharacter, quantifier, or `'.'`), the compiled predicate keeps a row
exactly when the text occurs as a case-insensitive literal substring of the
company name or of the stock code. -/
theorem C2_search_literal_text (s : String) (rx : List RPiece) (r : Record)
    (hlit : s.data.all isLiteralChar = true) (hp : parseRe s.data = some rx) :
    searchKeep rx r = specSearchKeep s r := by
  rw [parseRe_literal s.data hlit] at hp
  injection hp with hp
  subst hp
  unfold searchKeep specSearchKeep
  rw [reSearch_literal, reSearch_literal]

/-- C2 witness: the amended theorem applied to the literal search text
`"ab"` and a concrete row. -/
theorem C2_search_literal_text_witness :
    ("ab".data.all isLiteralChar = true) ∧
    parseRe "ab".data = some [RPiece.once (RAtom.lit 'a'), RPiece.once (RAtom.lit 'b')] ∧
    searchKeep [RPiece.once (RAtom.lit 'a'), RPiece.once (RAtom.lit 'b')] recBase
      = specSearchKeep "ab" recBase :=
  ⟨by decide, by decide,
   C2_search_literal_text "ab" _ recBase (by decide) (by decide)⟩

/-! ### Claim C3 -/

/-- C3 counterexample: with search text `"a"`, both `"Alpha"` and `"Beta"`
match, and the trend series contains the rows of BOTH companies — not the
series of the single first matching company that the claim describes. -/
theorem C3_trend_counterexample :
    company_trend [recAlpha, recBeta] "a" = some [(2020, 10), (2021, 20)] ∧
    firstMatchTrend [recAlpha, recBeta] "a" = [(2020, 10)] ∧
    company_trend [recAlpha, recBeta] "a" ≠ some (firstMatchTrend [recAlpha, recBeta] "a") := by
  refine ⟨by decide, by decide, by decide⟩

/-- C3 (amended): the trend series consists of the (year, index_score) pairs
of ALL rows of the full table matching the search pattern — every matching
company, all years — sorted ascending by year; the spec's Acme scenario holds
as stated because there the matching rows all belong to one company. -/
theorem C3_trend_all_matching (df : List Record) (s : String) (rx : List RPiece)
    (ps : List (Int × ℚ))
    (hp : parseRe s.data = some rx) (h : company_trend df s = some ps) :
    List.Chain' (fun a b : Int × ℚ => a.1 ≤ b.1) ps ∧
    ps.Perm ((df.filter (searchKeep rx)).map (fun r => (r.year, r.index_score))) ∧
    company_trend [recAcme1, recAcme0] "acme" = some [(2020, 80), (2021, 90)] := by
  unfold company_trend trend_df at h
  rw [hp] at h
  simp only [Option.map_some', Option.some.injEq] at h
  subst h
  haveI : IsTotal Record (fun a b => a.year ≤ b.year) := ⟨fun a b => Int.le_total a.year b.year⟩
  haveI : IsTrans Record (fun a b => a.year ≤ b.year) := ⟨fun _ _ _ h1 h2 => le_trans h1 h2⟩
  refine ⟨?_, ?_, by decide⟩
  · have hs := List.sorted_insertionSort (fun a b : Record => a.year ≤ b.year)
      (df.filter (searchKeep rx))
    apply List.Pairwise.chain'
    exact List.pairwise_map.mpr hs
  · exact List.Perm.map _ (List.perm_insertionSort _ _)

/-- C3 witness: the amended theorem applied to the two-company table. -/
theorem C3_trend_all_matching_witness :
    List.Chain' (fun a b : Int × ℚ => a.1 ≤ b.1) [((2020 : Int), (10 : ℚ)), (2021, 20)] ∧
    List.Perm [((2020 : Int), (10 : ℚ)), (2021, 20)]
      (([recAlpha, recBeta].filter (searchKeep [RPiece.once (RAtom.lit 'a')])).map
        (fun r => (r.year, r.index_score))) ∧
    company_trend [recAcme1, recAcme0] "acme" = some [(2020, 80), (2021, 90)] :=
  C3_trend_all_matching [recAlpha, recBeta] "a" _ _ (by decide) (by decide)

/-! ### Claim C4 -/

/-- C4: the industry ranking groups the FULL table restricted to the selected
year (not the filtered subset), each entry's value is the mean index score of
its industry's rows in that restriction, and the output is sorted descending:
each entry's average is ≥ the next one's. -/
theorem C4_industry_ranking (df : List Record) (y : Int) (p : String × ℚ)
    (hp : p ∈ industry_avg df y) :
    List.Chain' (fun a b : String × ℚ => b.2 ≤ a.2) (industry_avg df y) ∧
    p.2 = mean (((df.filter (fun r => r.year == y)).filter
      (fun r => r.industry_name == some p.1)).map (fun r => r.index_score)) := by
  haveI : IsTotal (String × ℚ) (fun a b => b.2 ≤ a.2) := ⟨fun a b => le_total b.2 a.2⟩
  haveI : IsTrans (String × ℚ) (fun a b => b.2 ≤ a.2) := ⟨fun _ _ _ h1 h2 => le_trans h2 h1⟩
  constructor
  · exact (List.sorted_insertionSort (fun a b : String × ℚ => b.2 ≤ a.2) _).chain'
  · unfold industry_avg at hp
    have hp2 := (List.Perm.mem_iff (List.perm_insertionSort _ _)).mp hp
    obtain ⟨k, _, hk⟩ := List.mem_map.mp hp2
    rw [← hk]

/-- C4 witness: the theorem applied to a two-industry table at its first
ranking entry. -/
theorem C4_industry_ranking_witness :
    List.Chain' (fun a b : String × ℚ => b.2 ≤ a.2) (industry_avg [recAlpha, recBeta0] 2020) ∧
    ((("服务" : String), (20 : ℚ)) : String × ℚ).2
      = mean ((([recAlpha, recBeta0].filter (fun r => r.year == 2020)).filter
        (fun r => r.industry_name == some ("服务", (20 : ℚ)).1)).map (fun r => r.index_score)) :=
  C4_industry_ranking [recAlpha, recBeta0] 2020 ("服务", 20) (by decide)

/-! ### Claim C5 -/

/-- Rank values read off an enumeration are the consecutive integers. -/
theorem enumFrom_map_rank {α : Type} (n : Nat) (l : List α) :
    (List.enumFrom n l).map (fun p => p.1 + 1) = List.range' (n + 1) l.length := by
  induction l generalizing n with
  | nil => rfl
  | cons a tl ih => simp [List.enumFrom, List.range', ih (n + 1)]

/-- C5: the ranking table holds at most 20 records, its rank column is exactly
1, 2, …, its length with no gaps, and its rows are sorted descending by index
score (ranks assigned in that order). -/
theorem C5_rank_and_truncate (t : List Record) :
    (display_df t).length ≤ 20 ∧
    (display_df t).map (fun r => r.rank) = List.range' 1 (display_df t).length ∧
    List.Chain' (fun a b : DisplayRow => b.index_score ≤ a.index_score) (display_df t) := by
  refine ⟨?_, ?_, ?_⟩
  · unfold display_df
    simp only [List.length_map, List.enum_length]
    exact List.length_take_le 20 _
  · unfold display_df
    rw [List.map_map]
    simp only [List.length_map, List.enum_length]
    have := enumFrom_map_rank 0 ((ranked_df t).take 20)
    simpa [List.enum] using this
  · haveI : IsTotal Record (fun a b => b.index_score ≤ a.index_score) :=
      ⟨fun a b => le_total b.index_score a.index_score⟩
    haveI : IsTrans Record (fun a b => b.index_score ≤ a.index_score) :=
      ⟨fun _ _ _ h1 h2 => le_trans h2 h1⟩
    have hsorted : List.Pairwise (fun a b : Record => b.index_score ≤ a.index_score)
        (ranked_df t) :=
      List.sorted_insertionSort (fun a b : Record => b.index_score ≤ a.index_score) t
    have htake : List.Pairwise (fun a b : Record => b.index_score ≤ a.index_score)
        ((ranked_df t).take 20) :=
      List.Pairwise.sublist (List.take_sublist 20 _) hsorted
    have henum : List.Pairwise (fun p q : Nat × Record => q.2.index_score ≤ p.2.index_score)
        ((ranked_df t).take 20).enum := by
      rw [← List.enum_map_snd ((ranked_df t).take 20)] at htake
      exact List.pairwise_map.mp htake
    exact (List.pairwise_map.mpr henum).chain'

/-! ### Claim C6 -/

/-- C6: on the empty filtered table the summary block reports a count of 0 and
no numeric value at all for mean/max/min (never 0, never a NaN-like value);
on a one-row table mean, max and min all equal that row's index score. -/
theorem C6_summary_empty_and_singleton (r : Record) :
    summaryBlock [] = (0, none, none, none) ∧
    summaryBlock [r] = (1, some r.index_score, some r.index_score, some r.index_score) := by
  refine ⟨rfl, ?_⟩
  have hm : mean [r.index_score] = r.index_score := by
    rw [mean_eq_sum_div_length]
    simp
  simp [summaryBlock, maxScore, minScore, hm]

/-! ### Claim C7 -/

/-- C7: stock-code normalization pads string forms shorter than 6 characters
with leading zeros and leaves 6-character forms unchanged (so it is idempotent
there); `"123"` — as a string or as the integer 123 — becomes `"000123"`, and
the stored value is a string in every case (the result type of `normStock`). -/
theorem C7_stock_normalization (v : PyVal) (h6 : (pyStr v).length = 6) :
    normStock v = pyStr v ∧
    normStock (PyVal.vstr (normStock v)) = normStock v ∧
    normStock (PyVal.vstr "123") = "000123" ∧
    normStock (PyVal.vint 123) = "000123" := by
  have h1 : normStock v = pyStr v := by
    unfold normStock
    rw [if_neg]
    rintro ⟨-, -, hlt⟩
    rw [h6] at hlt
    exact absurd hlt (by norm_num)
  refine ⟨h1, ?_, by decide, by decide⟩
  rw [h1]
  unfold normStock
  rw [if_neg]
  · rfl
  · rintro ⟨-, -, hlt⟩
    have hlt2 : (pyStr v).length < 6 := hlt
    rw [h6] at hlt2
    exact absurd hlt2 (by norm_num)

/-- C7 witness: the theorem applied to the 6-character code `"600519"`. -/
theorem C7_stock_normalization_witness :
    (pyStr (PyVal.vstr "600519")).length = 6 ∧
    (normStock (PyVal.vstr "600519") = pyStr (PyVal.vstr "600519") ∧
     normStock (PyVal.vstr (normStock (PyVal.vstr "600519"))) = normStock (PyVal.vstr "600519") ∧
     normStock (PyVal.vstr "123") = "000123" ∧
     normStock (PyVal.vint 123) = "000123") :=
  ⟨by decide, C7_stock_normalization (PyVal.vstr "600519") (by decide)⟩

/-! ### Claim C8 -/

/-- Every element of a successful `mapOption` image comes from a source
element on which `f` succeeded. -/
theorem mapOption_mem {α β : Type} (f : α → Option β) (l : List α) (t : List β)
    (h : mapOption f l = some t) (b : β) (hb : b ∈ t) :
    ∃ a ∈ l, f a = some b := by
  induction l generalizing t with
  | nil =>
    injection h with h
    subst h
    cases hb
  | cons a as ih =>
    unfold mapOption at h
    cases hfa : f a with
    | none => rw [hfa] at h; cases h
    | some b0 =>
      cases hrest : mapOption f as with
      | none => rw [hfa, hrest] at h; cases h
      | some bs =>
        rw [hfa, hrest] at h
        injection h with h
        subst h
        rcases List.mem_cons.mp hb with hb0 | hbs
        · exact ⟨a, by simp, by rw [hfa, hb0]⟩
        · obtain ⟨a', ha', hfa'⟩ := ih bs hrest hbs
          exact ⟨a', by simp [ha'], hfa'⟩

/-- C8: every record of a successfully loaded table descends from a raw row
whose company name and index score were present (rows missing them are
dropped) and whose year cell coerced to the record's integer year (a
non-coercible year among kept rows fails the whole load); its stock code is
the normalized — hence string — form of the raw cell. -/
theorem C8_load_invariants (rows : List Row) (t : List Record) (rec : Record)
    (h : load_data rows = some t) (hrec : rec ∈ t) :
    ∃ raw ∈ rows,
      raw.company_name = some rec.company_name ∧
      raw.index_score = some rec.index_score ∧
      coerceYear raw.year = some rec.year ∧
      rec.stock_code = normStock raw.stock_code := by
  unfold load_data at h
  obtain ⟨k, hk, hmk⟩ := mapOption_mem _ _ _ h rec hrec
  have hk2 := (List.mem_filter.mp hk).1
  obtain ⟨raw, hraw, hkeq⟩ := List.mem_map.mp hk2
  refine ⟨raw, hraw, ?_⟩
  subst hkeq
  unfold mkRecord at hmk
  cases hcn : raw.company_name with
  | none => rw [hcn] at hmk; cases hmk
  | some c =>
    cases his : raw.index_score with
    | none => rw [hcn, his] at hmk; cases hmk
    | some sc =>
      cases hcy : coerceYear raw.year with
      | none => rw [hcn, his, hcy] at hmk; cases hmk
      | some yv =>
        rw [hcn, his, hcy] at hmk
        injection hmk with hmk
        subst hmk
        exact ⟨rfl, rfl, rfl, rfl⟩

/-- C8 witness: the theorem applied to a one-row load. -/
theorem C8_load_invariants_witness :
    load_data [rowGood] = some [recG] ∧ recG ∈ [recG] ∧
    (∃ raw ∈ [rowGood],
      raw.company_name = some recG.company_name ∧
      raw.index_score = some recG.index_score ∧
      coerceYear raw.year = some recG.year ∧
      recG.stock_code = normStock raw.stock_code) :=
  ⟨by decide, by decide,
   C8_load_invariants [rowGood] [recG] recG (by decide) (by decide)⟩

/-! ### Claim C9 -/

/-- C9 counterexample: the industry fillna step (source line 61) is an
in-place assignment into the loaded table; on a table containing a row with a
null industry it does NOT leave the loaded table unchanged. -/
theorem C9_immutability_counterexample : fill_industry [recNull] ≠ [recNull] := by
  decide

/-- C9 (amended): the loaded table is mutated only by the industry fillna
step, and only in the industry column: every other field of every row is
preserved, and on a table with no null industry the table is left unchanged
(the filter and aggregation operations themselves build new lists). -/
theorem C9_fill_industry_frame :
    (∀ df : List Record,
      (fill_industry df).map
          (fun r => (r.stock_code, r.company_name, r.year, r.index_score, r.total_word_freq))
        = df.map
          (fun r => (r.stock_code, r.company_name, r.year, r.index_score, r.total_word_freq))) ∧
    (∀ df : List Record, (∀ r ∈ df, r.industry_name ≠ none) → fill_industry df = df) := by
  constructor
  · intro df
    rw [fill_industry, List.map_map]
    rfl
  · intro df hall
    rw [fill_industry]
    conv_rhs => rw [← List.map_id df]
    apply List.map_congr_left
    intro r hr
    cases hri : r.industry_name with
    | none => exact absurd hri (hall r hr)
    | some v =>
      simp only [hri, Option.getD_some, id_eq]
      rw [← hri]

/-- C9 witness: the amended theorem applied to a concrete one-row table with
a non-null industry. -/
theorem C9_fill_industry_frame_witness :
    ((fill_industry [recBase]).map
        (fun r => (r.stock_code, r.company_name, r.year, r.index_score, r.total_word_freq))
      = [recBase].map
        (fun r => (r.stock_code, r.company_name, r.year, r.index_score, r.total_word_freq))) ∧
    fill_industry [recBase] = [recBase] :=
  ⟨C9_fill_industry_frame.1 [recBase],
   C9_fill_industry_frame.2 [recBase] (by decide)⟩

/-! ### Claim C10 -/

/-- C10: the slider bounds are the `int()`-truncations of the global min and
max index score, so with the widest (default) range selected, any row whose
score exceeds the truncated maximum fails the inclusive range filter; on the
concrete table whose maximum score is the non-integral 79.5, the top-scoring
row is excluded even though no narrowing filter is active. -/
theorem C10_slider_truncation :
    (∀ (df out : List Record) (y lo : Int) (r : Record),
        r ∈ df → ((pyTrunc (maxScore df) : ℚ) < r.index_score) →
        filtered_df df y "全部" lo (pyTrunc (maxScore df)) "" = some out →
        r ∉ out) ∧
    maxScore [recHigh, recLow] = mkRat 159 2 ∧
    filtered_df [recHigh, recLow] 2020 "全部" (pyTrunc (minScore [recHigh, recLow]))
      (pyTrunc (maxScore [recHigh, recLow])) "" = some [recLow] := by
  refine ⟨?_, by decide, by decide⟩
  intro df out y lo r _ hgt hfil hmem
  have hpass := ((mem_filtered_df r hfil).mp hmem).2
  simp only [rowPasses, Bool.and_eq_true, decide_eq_true_eq] at hpass
  exact absurd hpass.1.2.2 (not_le.mpr hgt)

/-- C10 witness: the universal part applied to the concrete table — the
79.5-scoring row is not in the widest-range filter output. -/
theorem C10_slider_truncation_witness :
    recHigh ∈ [recHigh, recLow] ∧
    ((pyTrunc (maxScore [recHigh, recLow]) : ℚ) < recHigh.index_score) ∧
    recHigh ∉ [recLow] :=
  ⟨by decide, by decide,
   C10_slider_truncation.1 [recHigh, recLow] [recLow] 2020
     (pyTrunc (minScore [recHigh, recLow])) recHigh (by decide) (by decide) (by decide)⟩
